import Mathlib

/-!
Shallow embedding of `src/api/newsapi.js`: a news-fetch module that returns
either a complete summary or an absent value, never a thrown error.  The
module has three functions: `fetchNewsSentiment` (orchestrator wrapping
everything in try/catch), `structureNewsData` (headline shaping), and
`extractThemes` (keyword-based theme counting and ranking).

JavaScript features are modelled explicitly:
  * the network call and body parsing are oracles (`FetchOutcome`,
    `JsonOutcome`) covering success, non-success statuses and thrown
    exceptions;
  * the JS object `themeCounts` is an association list in key-insertion
    order, as the JS specification guarantees for string keys;
  * `Array.prototype.sort` with comparator `(a, b) => b[1] - a[1]` is a
    stable descending sort on the count; it is modelled by insertion sort
    with the relation "left count is at least right count", which computes
    the same list as any stable descending sort;
  * thrown exceptions are `Except.error`; the outer catch converts them to
    the absent result and logs at error level.
-/

namespace NewsApi

/-- A news source object, the `source` field of a raw article. -/
structure Source where
  name : String
deriving DecidableEq

/-- A raw article as delivered in the provider's JSON body.  `description`
is optional (`article.description || ''` treats a missing one as empty);
`source` is `none` when the article lacks a source object, in which case
reading `source.name` faults with a TypeError. -/
structure RawArticle where
  title : String
  description : Option String
  source : Option Source
  publishedAt : String
  url : String
deriving DecidableEq

/-- The projected headline record `{title, source, publishedAt, url}`. -/
structure Headline where
  title : String
  source : String
  publishedAt : String
  url : String
deriving DecidableEq

/-- The output aggregate built by `structureNewsData`. -/
structure NewsSummary where
  articleCount : Nat
  themes : List String
  headlines : List Headline
  timestamp : String
deriving DecidableEq

/-- Leading-segment match: the pattern equals the first characters of the
text. -/
def leadMatch : List Char → List Char → Bool
  | [], _ => true
  | _ :: _, [] => false
  | c :: cs, d :: ds => c == d && leadMatch cs ds

/-- Occurrence of the pattern at some position of the text. -/
def subMatch (pat : List Char) : List Char → Bool
  | [] => leadMatch pat []
  | d :: ds => leadMatch pat (d :: ds) || subMatch pat ds

/-- Substring test: JS `text.includes(kw)`. -/
def containsSub (text kw : String) : Bool :=
  subMatch kw.toList text.toList

/-- The fixed keyword table of `extractThemes`, in declaration order. -/
def themeKeywords : List (String × List String) :=
  [("monetary_policy",
      ["fed", "federal reserve", "powell", "interest rates", "hawkish", "dovish", "policy"]),
   ("inflation", ["inflation", "cpi", "prices", "pce", "deflation"]),
   ("growth", ["gdp", "growth", "recession", "expansion", "contraction"]),
   ("employment", ["jobs", "unemployment", "payrolls", "labor", "wages"]),
   ("markets", ["stocks", "equities", "bonds", "yields", "volatility"])]

/-- JS `toLowerCase` character by character (the keyword table is ASCII). -/
def toLowerStr (s : String) : String :=
  String.mk (s.toList.map Char.toLower)

/-- The lowercased search text of one article:
`(article.title + ' ' + (article.description || '')).toLowerCase()`. -/
def articleText (a : RawArticle) : String :=
  toLowerStr (a.title ++ " " ++ a.description.getD "")

/-- `keywords.some(kw => text.includes(kw))` for one theme row. -/
def themeMatches (a : RawArticle) (kws : List String) : Bool :=
  kws.any (fun kw => containsSub (articleText a) kw)

/-- The JS object `themeCounts`: string keys in insertion order. -/
abbrev Counts := List (String × Nat)

/-- `themeCounts[theme] = (themeCounts[theme] || 0) + 1`: bump an existing
key in place, or append a fresh key with count 1 at the end. -/
def bumpCount (counts : Counts) (theme : String) : Counts :=
  if theme ∈ counts.map Prod.fst then
    counts.map (fun p => if p.1 = theme then (p.1, p.2 + 1) else p)
  else counts ++ [(theme, 1)]

/-- One theme row of the inner `Object.entries(themeKeywords).forEach`. -/
def themeStep (a : RawArticle) (counts : Counts) (tk : String × List String) : Counts :=
  if themeMatches a tk.2 then bumpCount counts tk.1 else counts

/-- One iteration of `articles.forEach`: every theme row is visited in
declaration order and the matched ones are bumped. -/
def articleStep (counts : Counts) (a : RawArticle) : Counts :=
  themeKeywords.foldl (themeStep a) counts

/-- The finished `themeCounts` object after the `articles.forEach` loop. -/
def themeCountsOf (articles : List RawArticle) : Counts :=
  articles.foldl articleStep []

/-- JS `entries.sort((a, b) => b[1] - a[1])`: a stable sort, descending on
the count.  Insertion sort under "left count is at least right count" is
such a stable sort and computes the same list. -/
def sortByCountDesc (c : Counts) : Counts :=
  List.insertionSort (fun p q : String × Nat => q.2 ≤ p.2) c

/-- `extractThemes(articles)`: count, sort descending, keep the top 3,
return the labels. -/
def extractThemes (articles : List RawArticle) : List String :=
  ((sortByCountDesc (themeCountsOf articles)).take 3).map Prod.fst

/-- `articles.map(a => ({title: a.title, source: a.source.name, ...}))`;
the projection faults on the first article without a source object. -/
def headlinesOf : List RawArticle → Except String (List Headline)
  | [] => Except.ok []
  | a :: rest =>
    match a.source with
    | none => Except.error "Cannot read properties of undefined (reading name)"
    | some src =>
      match headlinesOf rest with
      | Except.ok hs => Except.ok (⟨a.title, src.name, a.publishedAt, a.url⟩ :: hs)
      | Except.error msg => Except.error msg

/-- `structureNewsData(rawData)` where `rawData.articles` is the optional
article list; `now` stands for `new Date().toISOString()`. -/
def structureNewsData (articlesOpt : Option (List RawArticle)) (now : String) :
    Except String (Option NewsSummary) :=
  match articlesOpt with
  | none => Except.ok none
  | some raw =>
    if raw.length = 0 then Except.ok none
    else
      match headlinesOf (raw.take 10) with
      | Except.error msg => Except.error msg
      | Except.ok hs =>
        Except.ok (some ⟨(raw.take 10).length, extractThemes (raw.take 10), hs, now⟩)

/-- The configuration object: `env.NEWSAPI_KEY` is absent or a string. -/
structure Env where
  NEWSAPI_KEY : Option String

/-- JS truthiness test `!apiKey`: true when the key is absent or empty. -/
def keyMissing : Option String → Bool
  | none => true
  | some s => s == ""

/-- `response.ok` per the Fetch specification: status in 200..299. -/
def statusOk (status : Nat) : Bool :=
  decide (200 ≤ status) && decide (status ≤ 299)

/-- Behaviour of `await response.json()`: a thrown parse exception, or
parsed data whose `articles` field is absent or a list. -/
inductive JsonOutcome where
  | throws (msg : String)
  | parsed (articles : Option (List RawArticle))

/-- Behaviour of `await fetch(...)`: a thrown network exception, or a
response with a status and a body-parsing behaviour. -/
inductive FetchOutcome where
  | throws (msg : String)
  | success (status : Nat) (body : JsonOutcome)

/-- Diagnostic levels: `console.warn` and `console.error`. -/
inductive LogLevel where
  | warn
  | error
deriving DecidableEq

/-- One console diagnostic. -/
structure LogEntry where
  level : LogLevel
  msg : String
deriving DecidableEq

/-- What the try-block of `fetchNewsSentiment` produces before the catch:
a result that may still be a thrown error, the diagnostics so far, and
whether `fetch` was invoked. -/
structure BodyTrace where
  result : Except String (Option NewsSummary)
  logs : List LogEntry
  fetchCalled : Bool

/-- The try-block of `fetchNewsSentiment`: credential check, network call,
status check, body parse, then `structureNewsData`.  Thrown exceptions
surface as `Except.error`. -/
def fetchBody (env : Env) (net : FetchOutcome) (now : String) : BodyTrace :=
  if keyMissing env.NEWSAPI_KEY then
    ⟨Except.ok none, [⟨LogLevel.warn, "NEWSAPI_KEY not configured"⟩], false⟩
  else
    match net with
    | FetchOutcome.throws msg => ⟨Except.error msg, [], true⟩
    | FetchOutcome.success status body =>
      if statusOk status then
        match body with
        | JsonOutcome.throws msg => ⟨Except.error msg, [], true⟩
        | JsonOutcome.parsed arts => ⟨structureNewsData arts now, [], true⟩
      else
        ⟨Except.ok none, [⟨LogLevel.warn, "NewsAPI returned " ++ toString status⟩], true⟩

/-- The observable outcome of one call: the returned value (the summary or
null), the diagnostics, and whether `fetch` was invoked. -/
structure Outcome where
  result : Option NewsSummary
  logs : List LogEntry
  fetchCalled : Bool
deriving DecidableEq

/-- `fetchNewsSentiment(env)`: the try-block with the outer catch, which
logs the failure at error level and converts it to null. -/
def fetchNewsSentiment (env : Env) (net : FetchOutcome) (now : String) : Outcome :=
  let t := fetchBody env net now
  match t.result with
  | Except.ok r => ⟨r, t.logs, t.fetchCalled⟩
  | Except.error msg =>
    ⟨none, t.logs ++ [⟨LogLevel.error, "NewsAPI fetch failed: " ++ msg⟩], t.fetchCalled⟩

/-- First-match lookup of a theme's count; 0 when the key is absent
(`themeCounts[theme] || 0`). -/
def assocCount : Counts → String → Nat
  | [], _ => 0
  | p :: rest, t => if p.1 = t then p.2 else assocCount rest t

/-- The number of articles whose search text matches at least one of the
given keywords: the intended meaning of a theme's occurrence count. -/
def themeCount (articles : List RawArticle) (kws : List String) : Nat :=
  (articles.filter (fun a => themeMatches a kws)).length

/-- The keyword row declared for a theme label ([] for a foreign label). -/
def keywordsFor (t : String) : List String :=
  match themeKeywords.find? (fun tk => tk.1 == t) with
  | some tk => tk.2
  | none => []

/-- Convenience constructor for concrete test articles with a source. -/
def art (title : String) (desc : Option String) : RawArticle :=
  ⟨title, desc, some ⟨"X"⟩, "2024-01-01T00:00:00Z", "u1"⟩

/-- A concrete article without a source object. -/
def artNoSource : RawArticle :=
  ⟨"t", none, none, "2024-01-01T00:00:00Z", "u1"⟩

/-- Search text as claim C3 words it: the lowercased concatenation of title
and description with no separator.  Modelled from the claim's words, for
comparison with `articleText`, which the source builds with a space
separator (`article.title + ' ' + ...`). -/
def searchTextClaim (a : RawArticle) : String :=
  toLowerStr (a.title ++ a.description.getD "")

/-- A concrete article list realising the counts
inflation = 3, growth = 3, markets = 1 with growth matched first. -/
def tieArticles : List RawArticle :=
  [art "gdp" none, art "inflation gdp" none, art "inflation gdp" none,
   art "cpi" none, art "stocks" none]

/-- Invariant of the `themeCounts` object: keys are distinct declared theme
labels and every stored count is at least 1. -/
def goodCounts (c : Counts) : Prop :=
  (c.map Prod.fst).Nodup ∧ ∀ p ∈ c, p.1 ∈ themeKeywords.map Prod.fst ∧ 1 ≤ p.2

instance : IsTotal (String × Nat) (fun p q => q.2 ≤ p.2) :=
  ⟨fun a b => Nat.le_total b.2 a.2⟩

instance : IsTrans (String × Nat) (fun p q => q.2 ≤ p.2) :=
  ⟨fun _ _ _ h1 h2 => Nat.le_trans h2 h1⟩

/-- The worked example of the specification: one article titled
"Fed holds interest rates steady" with description "Powell signals caution"
classifies as exactly `["monetary_policy"]`. -/
theorem spec_example_monetary :
    extractThemes [art "Fed holds interest rates steady" (some "Powell signals caution")] =
      ["monetary_policy"] := by decide

theorem assocCount_eq_zero_of_not_mem (c : Counts) (t : String)
    (h : t ∉ c.map Prod.fst) : assocCount c t = 0 := by
  induction c with
  | nil => rfl
  | cons p rest ih =>
    simp only [List.map_cons, List.mem_cons] at h
    push_neg at h
    have hne : p.1 ≠ t := fun he => h.1 he.symm
    simp [assocCount, hne, ih h.2]

theorem assocCount_append_of_not_mem (c d : Counts) (t : String)
    (h : t ∉ c.map Prod.fst) : assocCount (c ++ d) t = assocCount d t := by
  induction c with
  | nil => rfl
  | cons p rest ih =>
    simp only [List.map_cons, List.mem_cons] at h
    push_neg at h
    have hne : p.1 ≠ t := fun he => h.1 he.symm
    simp [assocCount, hne, ih h.2]

theorem assocCount_update_self (c : Counts) (t : String) (h : t ∈ c.map Prod.fst) :
    assocCount (c.map (fun p => if p.1 = t then (p.1, p.2 + 1) else p)) t =
      assocCount c t + 1 := by
  induction c with
  | nil => cases h
  | cons p rest ih =>
    obtain ⟨a, b⟩ := p
    by_cases hp : a = t
    · subst hp
      simp [assocCount]
    · simp only [List.map_cons, List.mem_cons] at h
      have ht : t ∈ rest.map Prod.fst := by
        rcases h with he | ht
        · exact absurd he.symm hp
        · exact ht
      simp [assocCount, hp, ih ht]

theorem assocCount_update_ne (c : Counts) (t u : String) (h : u ≠ t) :
    assocCount (c.map (fun p => if p.1 = t then (p.1, p.2 + 1) else p)) u =
      assocCount c u := by
  induction c with
  | nil => rfl
  | cons p rest ih =>
    obtain ⟨a, b⟩ := p
    by_cases hp : a = t
    · subst hp
      simp [assocCount, Ne.symm h, ih]
    · by_cases hpu : a = u
      · subst hpu
        simp [assocCount, hp, ih]
      · simp [assocCount, hp, hpu, ih]

theorem assocCount_append_single_ne (c : Counts) (t u : String) (h : u ≠ t) :
    assocCount (c ++ [(t, 1)]) u = assocCount c u := by
  induction c with
  | nil => simp [assocCount, Ne.symm h]
  | cons p rest ih =>
    by_cases hp : p.1 = u
    · simp [assocCount, hp]
    · simp [assocCount, hp, ih]

theorem assocCount_bumpCount_self (c : Counts) (t : String) :
    assocCount (bumpCount c t) t = assocCount c t + 1 := by
  unfold bumpCount
  by_cases hmem : t ∈ c.map Prod.fst
  · rw [if_pos hmem, assocCount_update_self c t hmem]
  · rw [if_neg hmem, assocCount_append_of_not_mem c _ t hmem,
      assocCount_eq_zero_of_not_mem c t hmem]
    simp [assocCount]

theorem assocCount_bumpCount_ne (c : Counts) (t u : String) (h : u ≠ t) :
    assocCount (bumpCount c t) u = assocCount c u := by
  unfold bumpCount
  by_cases hmem : t ∈ c.map Prod.fst
  · rw [if_pos hmem, assocCount_update_ne c t u h]
  · rw [if_neg hmem, assocCount_append_single_ne c t u h]

theorem map_fst_update (c : Counts) (t : String) :
    (c.map (fun p => if p.1 = t then (p.1, p.2 + 1) else p)).map Prod.fst =
      c.map Prod.fst := by
  induction c with
  | nil => rfl
  | cons p rest ih =>
    by_cases hp : p.1 = t <;> simp [hp, ih]

theorem map_fst_bumpCount (c : Counts) (t : String) :
    (bumpCount c t).map Prod.fst =
      if t ∈ c.map Prod.fst then c.map Prod.fst else c.map Prod.fst ++ [t] := by
  unfold bumpCount
  by_cases hmem : t ∈ c.map Prod.fst
  · rw [if_pos hmem, if_pos hmem, map_fst_update]
  · rw [if_neg hmem, if_neg hmem]
    simp

theorem bumpCount_pos (c : Counts) (t : String)
    (h : ∀ p ∈ c, 1 ≤ p.2) : ∀ p ∈ bumpCount c t, 1 ≤ p.2 := by
  unfold bumpCount
  by_cases hmem : t ∈ c.map Prod.fst
  · rw [if_pos hmem]
    intro p hp
    rcases List.mem_map.mp hp with ⟨q, hq, rfl⟩
    by_cases hq1 : q.1 = t
    · rw [if_pos hq1]
      exact Nat.le_succ_of_le (h q hq)
    · rw [if_neg hq1]
      exact h q hq
  · rw [if_neg hmem]
    intro p hp
    rcases List.mem_append.mp hp with hp | hp
    · exact h p hp
    · simp only [List.mem_singleton] at hp
      simp [hp]

theorem assocCount_foldl_theme_not_mem (a : RawArticle) (table : List (String × List String)) :
    ∀ (c : Counts) (t : String), t ∉ table.map Prod.fst →
      assocCount (table.foldl (themeStep a) c) t = assocCount c t := by
  induction table with
  | nil => intro c t _; rfl
  | cons tk rest ih =>
    intro c t h
    simp only [List.map_cons, List.mem_cons] at h
    push_neg at h
    rw [List.foldl_cons, ih _ t h.2]
    unfold themeStep
    by_cases hm : themeMatches a tk.2 = true
    · rw [if_pos hm, assocCount_bumpCount_ne _ _ _ h.1]
    · rw [if_neg hm]

theorem assocCount_foldl_theme_mem (a : RawArticle) (table : List (String × List String)) :
    ∀ (c : Counts) (t : String) (kws : List String),
      (table.map Prod.fst).Nodup → (t, kws) ∈ table →
      assocCount (table.foldl (themeStep a) c) t =
        assocCount c t + (if themeMatches a kws then 1 else 0) := by
  induction table with
  | nil => intro c t kws _ h; cases h
  | cons tk rest ih =>
    intro c t kws hnd hmem
    simp only [List.map_cons, List.nodup_cons] at hnd
    rw [List.foldl_cons]
    rcases List.mem_cons.mp hmem with heq | htail
    · obtain rfl := heq.symm
      rw [assocCount_foldl_theme_not_mem a rest _ t hnd.1]
      unfold themeStep
      by_cases hm : themeMatches a kws = true
      · rw [if_pos hm, if_pos hm, assocCount_bumpCount_self]
      · rw [if_neg hm, if_neg hm, Nat.add_zero]
    · have ht : t ∈ rest.map Prod.fst := List.mem_map.mpr ⟨(t, kws), htail, rfl⟩
      have hne : t ≠ tk.1 := fun he => hnd.1 (he ▸ ht)
      rw [ih _ t kws hnd.2 htail]
      unfold themeStep
      by_cases hm : themeMatches a tk.2 = true
      · rw [if_pos hm, assocCount_bumpCount_ne _ _ _ hne]
      · rw [if_neg hm]

theorem themeKeywords_keys_nodup : (themeKeywords.map Prod.fst).Nodup := by decide

theorem assocCount_foldl_articles (arts : List RawArticle) :
    ∀ (c : Counts) (t : String) (kws : List String), (t, kws) ∈ themeKeywords →
      assocCount (arts.foldl articleStep c) t = assocCount c t + themeCount arts kws := by
  induction arts with
  | nil => intro c t kws _; simp [themeCount]
  | cons a rest ih =>
    intro c t kws h
    rw [List.foldl_cons, ih _ t kws h]
    unfold articleStep
    rw [assocCount_foldl_theme_mem a themeKeywords c t kws themeKeywords_keys_nodup h]
    unfold themeCount
    by_cases hm : themeMatches a kws = true
    · simp [List.filter_cons, hm]
      omega
    · simp [List.filter_cons, hm]

/-- The count the finished `themeCounts` object holds for a declared theme is
exactly the number of articles whose search text contains at least one of the
theme's keywords. -/
theorem themeCountsOf_assoc (arts : List RawArticle) (t : String) (kws : List String)
    (h : (t, kws) ∈ themeKeywords) :
    assocCount (themeCountsOf arts) t = themeCount arts kws := by
  have h0 := assocCount_foldl_articles arts [] t kws h
  simpa [themeCountsOf, assocCount] using h0

theorem goodCounts_bumpCount (c : Counts) (t : String)
    (ht : t ∈ themeKeywords.map Prod.fst) (h : goodCounts c) : goodCounts (bumpCount c t) := by
  obtain ⟨hnd, hall⟩ := h
  constructor
  · rw [map_fst_bumpCount]
    by_cases hmem : t ∈ c.map Prod.fst
    · rw [if_pos hmem]; exact hnd
    · rw [if_neg hmem]
      simp [List.nodup_append, hnd, hmem]
  · intro p hp
    unfold bumpCount at hp
    by_cases hmem : t ∈ c.map Prod.fst
    · rw [if_pos hmem] at hp
      rcases List.mem_map.mp hp with ⟨q, hq, rfl⟩
      by_cases hq1 : q.1 = t
      · rw [if_pos hq1]
        exact ⟨hq1 ▸ ht, Nat.le_succ_of_le (hall q hq).2⟩
      · rw [if_neg hq1]
        exact hall q hq
    · rw [if_neg hmem] at hp
      rcases List.mem_append.mp hp with hp | hp
      · exact hall p hp
      · simp only [List.mem_singleton] at hp
        subst hp
        exact ⟨ht, Nat.le_refl 1⟩

theorem goodCounts_foldl_theme (a : RawArticle) (table : List (String × List String))
    (htab : ∀ tk ∈ table, tk.1 ∈ themeKeywords.map Prod.fst) :
    ∀ c : Counts, goodCounts c → goodCounts (table.foldl (themeStep a) c) := by
  induction table with
  | nil => intro c h; exact h
  | cons tk rest ih =>
    intro c h
    rw [List.foldl_cons]
    refine ih (fun q hq => htab q (List.mem_cons_of_mem tk hq)) _ ?_
    unfold themeStep
    by_cases hm : themeMatches a tk.2 = true
    · rw [if_pos hm]
      exact goodCounts_bumpCount c tk.1 (htab tk (List.mem_cons_self tk rest)) h
    · rw [if_neg hm]
      exact h

theorem goodCounts_themeCountsOf (arts : List RawArticle) : goodCounts (themeCountsOf arts) := by
  have main : ∀ (l : List RawArticle) (c : Counts), goodCounts c →
      goodCounts (l.foldl articleStep c) := by
    intro l
    induction l with
    | nil => intro c h; exact h
    | cons a rest ih =>
      intro c h
      rw [List.foldl_cons]
      exact ih _ (goodCounts_foldl_theme a themeKeywords
        (fun tk htk => List.mem_map.mpr ⟨tk, htk, rfl⟩) c h)
  exact main arts [] ⟨List.nodup_nil, by simp⟩

theorem assocCount_of_mem (c : Counts) (p : String × Nat)
    (hnd : (c.map Prod.fst).Nodup) (h : p ∈ c) : assocCount c p.1 = p.2 := by
  induction c with
  | nil => cases h
  | cons q rest ih =>
    simp only [List.map_cons, List.nodup_cons] at hnd
    rcases List.mem_cons.mp h with rfl | htail
    · simp [assocCount]
    · have hq : q.1 ≠ p.1 := fun he => hnd.1 (he ▸ List.mem_map.mpr ⟨p, htail, rfl⟩)
      simp [assocCount, hq, ih hnd.2 htail]

theorem foldl_theme_no_match (a : RawArticle) (table : List (String × List String))
    (h : ∀ tk ∈ table, themeMatches a tk.2 = false) (c : Counts) :
    table.foldl (themeStep a) c = c := by
  induction table with
  | nil => rfl
  | cons tk rest ih =>
    rw [List.foldl_cons]
    have hstep : themeStep a c tk = c := by
      unfold themeStep
      rw [if_neg (by simp [h tk (List.mem_cons_self tk rest)])]
    rw [hstep, ih (fun q hq => h q (List.mem_cons_of_mem tk hq))]

theorem themeCountsOf_nil_of_no_match (arts : List RawArticle)
    (h : ∀ a ∈ arts, ∀ tk ∈ themeKeywords, themeMatches a tk.2 = false) :
    themeCountsOf arts = [] := by
  unfold themeCountsOf
  induction arts with
  | nil => rfl
  | cons a rest ih =>
    rw [List.foldl_cons]
    unfold articleStep
    rw [foldl_theme_no_match a themeKeywords (h a (List.mem_cons_self a rest)) []]
    exact ih (fun b hb => h b (List.mem_cons_of_mem a hb))

theorem sortByCountDesc_perm (c : Counts) : List.Perm (sortByCountDesc c) c :=
  List.perm_insertionSort (fun p q : String × Nat => q.2 ≤ p.2) c

theorem sortByCountDesc_sorted (c : Counts) :
    (sortByCountDesc c).Pairwise (fun p q : String × Nat => q.2 ≤ p.2) :=
  List.sorted_insertionSort (fun p q : String × Nat => q.2 ≤ p.2) c

theorem keywordsFor_eq_of_mem (t : String) (kws : List String)
    (h : (t, kws) ∈ themeKeywords) : keywordsFor t = kws := by
  have h5 : (t, kws) = ("monetary_policy",
        ["fed", "federal reserve", "powell", "interest rates", "hawkish", "dovish", "policy"]) ∨
      (t, kws) = ("inflation", ["inflation", "cpi", "prices", "pce", "deflation"]) ∨
      (t, kws) = ("growth", ["gdp", "growth", "recession", "expansion", "contraction"]) ∨
      (t, kws) = ("employment", ["jobs", "unemployment", "payrolls", "labor", "wages"]) ∨
      (t, kws) = ("markets", ["stocks", "equities", "bonds", "yields", "volatility"]) := by
    simpa [themeKeywords] using h
  rcases h5 with h5 | h5 | h5 | h5 | h5 <;>
    · obtain ⟨rfl, rfl⟩ := Prod.mk.injEq .. ▸ h5
      decide

theorem keywordsFor_mem (t : String) (h : t ∈ themeKeywords.map Prod.fst) :
    (t, keywordsFor t) ∈ themeKeywords := by
  have h5 : t = "monetary_policy" ∨ t = "inflation" ∨ t = "growth" ∨
      t = "employment" ∨ t = "markets" := by
    simpa [themeKeywords] using h
  rcases h5 with rfl | rfl | rfl | rfl | rfl <;> decide

/-- Every entry of the finished `themeCounts` object is a declared theme
whose stored count equals its number of matching articles and is positive. -/
theorem mem_themeCountsOf_char (arts : List RawArticle) (p : String × Nat)
    (h : p ∈ themeCountsOf arts) :
    p.1 ∈ themeKeywords.map Prod.fst ∧
      p.2 = themeCount arts (keywordsFor p.1) ∧ 1 ≤ p.2 := by
  have hg := goodCounts_themeCountsOf arts
  have h1 := (hg.2 p h).1
  refine ⟨h1, ?_, (hg.2 p h).2⟩
  have hkf := keywordsFor_mem p.1 h1
  have hassoc := themeCountsOf_assoc arts p.1 (keywordsFor p.1) hkf
  have hmem := assocCount_of_mem (themeCountsOf arts) p hg.1 h
  rw [← hmem, hassoc]

/-- Every element of the sorted, truncated theme list is an entry of the
`themeCounts` object. -/
theorem mem_take_sorted (arts : List RawArticle) (p : String × Nat)
    (h : p ∈ (sortByCountDesc (themeCountsOf arts)).take 3) :
    p ∈ themeCountsOf arts :=
  (sortByCountDesc_perm (themeCountsOf arts)).mem_iff.mp (List.mem_of_mem_take h)

/-- A label is a key of the finished `themeCounts` object exactly when it is
a declared theme matched by at least one article. -/
theorem mem_counts_keys_iff (arts : List RawArticle) (t : String) :
    t ∈ (themeCountsOf arts).map Prod.fst ↔
      (t ∈ themeKeywords.map Prod.fst ∧ 1 ≤ themeCount arts (keywordsFor t)) := by
  constructor
  · intro h
    rcases List.mem_map.mp h with ⟨p, hp, rfl⟩
    have hc := mem_themeCountsOf_char arts p hp
    refine ⟨hc.1, ?_⟩
    rw [← hc.2.1]
    exact hc.2.2
  · rintro ⟨hdecl, hpos⟩
    by_contra hnot
    have h0 := assocCount_eq_zero_of_not_mem _ t hnot
    rw [themeCountsOf_assoc arts t (keywordsFor t) (keywordsFor_mem t hdecl)] at h0
    omega

/-- A label is a key of the keyword table filtered to surviving themes
exactly when it is a declared theme matched by at least one article. -/
theorem mem_filter_keys_iff (arts : List RawArticle) (t : String) :
    t ∈ ((themeKeywords.filter
        (fun tk => decide (1 ≤ themeCount arts tk.2))).map Prod.fst) ↔
      (t ∈ themeKeywords.map Prod.fst ∧ 1 ≤ themeCount arts (keywordsFor t)) := by
  constructor
  · intro h
    rcases List.mem_map.mp h with ⟨tk, htk, rfl⟩
    obtain ⟨htab, hdec⟩ := List.mem_filter.mp htk
    have hkw : keywordsFor tk.1 = tk.2 := keywordsFor_eq_of_mem tk.1 tk.2 htab
    refine ⟨List.mem_map.mpr ⟨tk, htab, rfl⟩, ?_⟩
    rw [hkw]
    exact of_decide_eq_true hdec
  · rintro ⟨hdecl, hpos⟩
    refine List.mem_map.mpr ⟨(t, keywordsFor t), ?_, rfl⟩
    exact List.mem_filter.mpr ⟨keywordsFor_mem t hdecl, decide_eq_true hpos⟩

/-- The keys of `themeCounts` are a permutation of the surviving rows of the
keyword table. -/
theorem counts_keys_perm (arts : List RawArticle) :
    List.Perm ((themeCountsOf arts).map Prod.fst)
      ((themeKeywords.filter
        (fun tk => decide (1 ≤ themeCount arts tk.2))).map Prod.fst) := by
  apply List.perm_of_nodup_nodup_toFinset_eq
  · exact (goodCounts_themeCountsOf arts).1
  · exact themeKeywords_keys_nodup.sublist ((List.filter_sublist themeKeywords).map Prod.fst)
  · ext t
    simp only [List.mem_toFinset]
    rw [mem_counts_keys_iff, mem_filter_keys_iff]

/-- `themeCounts` holds one entry per surviving theme. -/
theorem counts_length_eq (arts : List RawArticle) :
    (themeCountsOf arts).length =
      (themeKeywords.filter (fun tk => decide (1 ≤ themeCount arts tk.2))).length := by
  have h := (counts_keys_perm arts).length_eq
  simpa using h

theorem headlinesOf_ok (l : List RawArticle) (h : ∀ a ∈ l, a.source.isSome = true) :
    ∃ hs, headlinesOf l = Except.ok hs ∧
      List.Forall₂ (fun (hl : Headline) (a : RawArticle) => ∃ src, a.source = some src ∧
        hl = ⟨a.title, src.name, a.publishedAt, a.url⟩) hs l := by
  induction l with
  | nil => exact ⟨[], rfl, List.Forall₂.nil⟩
  | cons a rest ih =>
    have ha := h a (List.mem_cons_self a rest)
    rcases Option.isSome_iff_exists.mp ha with ⟨src, hsrc⟩
    rcases ih (fun b hb => h b (List.mem_cons_of_mem a hb)) with ⟨hs, hok, hfa⟩
    refine ⟨⟨a.title, src.name, a.publishedAt, a.url⟩ :: hs, ?_, ?_⟩
    · simp [headlinesOf, hsrc, hok]
    · exact List.Forall₂.cons ⟨src, hsrc, rfl⟩ hfa

theorem headlinesOf_error_of_missing_source (l : List RawArticle)
    (h : ∃ a ∈ l, a.source = none) :
    ∃ msg, headlinesOf l = Except.error msg := by
  induction l with
  | nil =>
    rcases h with ⟨a, ha, _⟩
    cases ha
  | cons a rest ih =>
    rcases h with ⟨b, hb, hbs⟩
    match hsrc : a.source with
    | none =>
      refine ⟨"Cannot read properties of undefined (reading name)", ?_⟩
      simp [headlinesOf, hsrc]
    | some src =>
      rcases List.mem_cons.mp hb with rfl | htail
      · rw [hsrc] at hbs
        cases hbs
      · rcases ih ⟨b, htail, hbs⟩ with ⟨msg, hmsg⟩
        exact ⟨msg, by simp [headlinesOf, hsrc, hmsg]⟩

theorem fetchNewsSentiment_def (env : Env) (net : FetchOutcome) (now : String) :
    fetchNewsSentiment env net now =
      match (fetchBody env net now).result with
      | Except.ok r =>
        ⟨r, (fetchBody env net now).logs, (fetchBody env net now).fetchCalled⟩
      | Except.error msg =>
        ⟨none, (fetchBody env net now).logs ++
          [⟨LogLevel.error, "NewsAPI fetch failed: " ++ msg⟩],
          (fetchBody env net now).fetchCalled⟩ := rfl

/-- C1: for every configuration and every behaviour of the network call and
body parsing (including thrown exceptions), `fetchNewsSentiment` never
propagates a thrown error: its observable result is the absent value or a
complete `NewsSummary`, and whenever the try-block ends in a thrown error
(`fetchBody` yields `Except.error`), the catch converts it to the absent
result. -/
theorem C1_never_throws (env : Env) (net : FetchOutcome) (now : String) :
    ((fetchNewsSentiment env net now).result = none ∨
      ∃ s : NewsSummary, (fetchNewsSentiment env net now).result = some s) ∧
    ∀ msg, (fetchBody env net now).result = Except.error msg →
      (fetchNewsSentiment env net now).result = none := by
  constructor
  · cases h : (fetchNewsSentiment env net now).result with
    | none => exact Or.inl rfl
    | some s => exact Or.inr ⟨s, rfl⟩
  · intro msg hmsg
    rw [fetchNewsSentiment_def, hmsg]

/-- C2: at the concrete input `tieArticles` the theme counts are exactly
inflation = 3, growth = 3, markets = 1, yet the code returns
`["growth", "inflation", "markets"]`: the tie between inflation and growth
is broken by insertion order of the `themeCounts` object keys (growth was
matched by an earlier article), not by the declaration order of the keyword
table, which would give `["inflation", "growth", "markets"]`. -/
theorem C2_tie_break_insertion_order :
    assocCount (themeCountsOf tieArticles) "inflation" = 3 ∧
    assocCount (themeCountsOf tieArticles) "growth" = 3 ∧
    assocCount (themeCountsOf tieArticles) "markets" = 1 ∧
    assocCount (themeCountsOf tieArticles) "monetary_policy" = 0 ∧
    assocCount (themeCountsOf tieArticles) "employment" = 0 ∧
    extractThemes tieArticles = ["growth", "inflation", "markets"] := by
  decide

/-- C3 counterexample: the search text is not the lowercased concatenation
of title and description.  For the article with title `"inf"` and
description `"lation"`, the claimed text is `"inflation"` and contains the
keyword `"inflation"`, so the claim demands the inflation counter be
incremented by exactly 1; the code's counter stays 0 and no theme is
returned, because the code's search text carries a space (`"inf lation"`).
Conversely, for title `"interest"` and description `"rates"` no theme
keyword occurs in the claimed text `"interestrates"`, yet the code returns
`["monetary_policy"]` via its text `"interest rates"`. -/
theorem C3_counterexample :
    assocCount (themeCountsOf [art "inf" (some "lation")]) "inflation" = 0 ∧
    extractThemes [art "inf" (some "lation")] = [] ∧
    searchTextClaim (art "inf" (some "lation")) = "inflation" ∧
    containsSub (searchTextClaim (art "inf" (some "lation"))) "inflation" = true ∧
    extractThemes [art "interest" (some "rates")] = ["monetary_policy"] ∧
    searchTextClaim (art "interest" (some "rates")) = "interestrates" ∧
    (themeKeywords.all (fun tk => tk.2.all
      (fun kw => containsSub (searchTextClaim (art "interest" (some "rates"))) kw == false)))
      = true := by
  decide

/-- C3 (amended): with the search text being the lowercased concatenation of
title, a single space, and the description (empty when absent) — exactly
`articleText` — theme counting is per-article-per-theme: the stored counter
of each declared theme equals the number of articles whose search text
contains at least one of the theme's keywords, so an article increments a
theme by exactly 1 no matter how many of its keywords match. -/
theorem C3_per_article_per_theme (articles : List RawArticle)
    (t : String) (kws : List String) (h : (t, kws) ∈ themeKeywords) :
    assocCount (themeCountsOf articles) t =
      (articles.filter (fun a => kws.any (fun kw => containsSub (articleText a) kw))).length := by
  have hassoc := themeCountsOf_assoc articles t kws h
  simpa [themeCount, themeMatches] using hassoc

/-- C3 witness: an article whose text contains both "fed" and "powell"
bumps monetary_policy by exactly 1, not 2. -/
theorem C3_per_article_per_theme_witness :
    ("monetary_policy",
        ["fed", "federal reserve", "powell", "interest rates", "hawkish", "dovish", "policy"])
      ∈ themeKeywords ∧
    assocCount (themeCountsOf [art "Fed decision" (some "Powell speaks")]) "monetary_policy" =
      ([art "Fed decision" (some "Powell speaks")].filter (fun a =>
        (["fed", "federal reserve", "powell", "interest rates", "hawkish", "dovish", "policy"]).any
          (fun kw => containsSub (articleText a) kw))).length ∧
    assocCount (themeCountsOf [art "Fed decision" (some "Powell speaks")]) "monetary_policy" = 1 :=
  ⟨by decide,
   C3_per_article_per_theme [art "Fed decision" (some "Powell speaks")] "monetary_policy"
     ["fed", "federal reserve", "powell", "interest rates", "hawkish", "dovish", "policy"]
     (by decide),
   by decide⟩

/-- C4: for a non-empty article list whose first min(10, n) articles all
carry a source object, `structureNewsData` returns a summary whose
`articleCount` and headline count are both min(10, n), and whose headlines
are, in input order, exactly the `{title, source.name, publishedAt, url}`
projections of the corresponding first articles. -/
theorem C4_headline_projection (now : String) (arts : List RawArticle)
    (hne : arts ≠ [])
    (hsrc : ∀ a ∈ arts.take 10, a.source.isSome = true) :
    ∃ s : NewsSummary,
      structureNewsData (some arts) now = Except.ok (some s) ∧
      s.articleCount = min 10 arts.length ∧
      s.headlines.length = min 10 arts.length ∧
      List.Forall₂ (fun (hl : Headline) (a : RawArticle) => ∃ src, a.source = some src ∧
        hl = ⟨a.title, src.name, a.publishedAt, a.url⟩) s.headlines (arts.take 10) := by
  have hlen : ¬ (arts.length = 0) := by simpa [List.length_eq_zero] using hne
  rcases headlinesOf_ok (arts.take 10) hsrc with ⟨hs, hok, hfa⟩
  refine ⟨⟨(arts.take 10).length, extractThemes (arts.take 10), hs, now⟩, ?_, ?_, ?_, hfa⟩
  · simp [structureNewsData, hlen, hok]
  · simp [List.length_take]
  · have := hfa.length_eq
    simp only [this, List.length_take]

/-- C4 witness: a 12-article body yields articleCount 10 and 10 headlines. -/
theorem C4_headline_projection_witness :
    List.replicate 12 (art "t" none) ≠ [] ∧
    (∀ a ∈ (List.replicate 12 (art "t" none)).take 10, a.source.isSome = true) ∧
    ∃ s : NewsSummary,
      structureNewsData (some (List.replicate 12 (art "t" none))) "now" = Except.ok (some s) ∧
      s.articleCount = min 10 (List.replicate 12 (art "t" none)).length ∧
      s.headlines.length = min 10 (List.replicate 12 (art "t" none)).length ∧
      List.Forall₂ (fun (hl : Headline) (a : RawArticle) => ∃ src, a.source = some src ∧
        hl = ⟨a.title, src.name, a.publishedAt, a.url⟩) s.headlines
        ((List.replicate 12 (art "t" none)).take 10) :=
  ⟨by decide, by decide,
   C4_headline_projection "now" (List.replicate 12 (art "t" none)) (by decide) (by decide)⟩

/-- C5: the returned theme list holds at most 3 labels, is sorted by
descending occurrence count, every returned theme has a positive occurrence
count, when no article matches any keyword the list is empty, its length is
exactly min 3 (number of surviving themes) — fewer than 3 only when fewer
than 3 themes have nonzero counts — and it is the TOP of the surviving
themes: every surviving theme is either returned or the list already holds
3 themes each ranking at least as high. -/
theorem C5_top3_sorted_positive (articles : List RawArticle) :
    (extractThemes articles).length ≤ 3 ∧
    (extractThemes articles).Pairwise (fun t1 t2 =>
      themeCount articles (keywordsFor t2) ≤ themeCount articles (keywordsFor t1)) ∧
    (∀ t ∈ extractThemes articles, 1 ≤ themeCount articles (keywordsFor t)) ∧
    ((∀ a ∈ articles, ∀ tk ∈ themeKeywords, themeMatches a tk.2 = false) →
      extractThemes articles = []) ∧
    (extractThemes articles).length =
      min 3 (themeKeywords.filter (fun tk => decide (1 ≤ themeCount articles tk.2))).length ∧
    (∀ t kws, (t, kws) ∈ themeKeywords → 1 ≤ themeCount articles kws →
      t ∈ extractThemes articles ∨
        ((extractThemes articles).length = 3 ∧
          ∀ u ∈ extractThemes articles,
            themeCount articles kws ≤ themeCount articles (keywordsFor u))) := by
  refine ⟨?_, ?_, ?_, ?_, ?_, ?_⟩
  · unfold extractThemes
    simp only [List.length_map, List.length_take]
    omega
  · unfold extractThemes
    rw [List.pairwise_map]
    have hp : ((sortByCountDesc (themeCountsOf articles)).take 3).Pairwise
        (fun p q : String × Nat => q.2 ≤ p.2) :=
      (sortByCountDesc_sorted (themeCountsOf articles)).sublist
        (List.take_sublist 3 _)
    refine hp.imp_of_mem ?_
    intro p q hpmem hqmem hle
    have hpc := mem_themeCountsOf_char articles p (mem_take_sorted articles p hpmem)
    have hqc := mem_themeCountsOf_char articles q (mem_take_sorted articles q hqmem)
    rw [← hpc.2.1, ← hqc.2.1]
    exact hle
  · intro t ht
    unfold extractThemes at ht
    rcases List.mem_map.mp ht with ⟨p, hp, rfl⟩
    have hc := mem_themeCountsOf_char articles p (mem_take_sorted articles p hp)
    rw [← hc.2.1]
    exact hc.2.2
  · intro h
    unfold extractThemes
    rw [themeCountsOf_nil_of_no_match articles h]
    rfl
  · unfold extractThemes
    rw [List.length_map, List.length_take,
      (sortByCountDesc_perm (themeCountsOf articles)).length_eq, counts_length_eq]
  · intro t kws htk hpos
    by_cases hmem : t ∈ extractThemes articles
    · exact Or.inl hmem
    · refine Or.inr ?_
      have hkw : keywordsFor t = kws := keywordsFor_eq_of_mem t kws htk
      have hkeys : t ∈ (themeCountsOf articles).map Prod.fst :=
        (mem_counts_keys_iff articles t).mpr
          ⟨List.mem_map.mpr ⟨(t, kws), htk, rfl⟩, by rw [hkw]; exact hpos⟩
      rcases List.mem_map.mp hkeys with ⟨p, hp, hp1⟩
      have hpsorted : p ∈ sortByCountDesc (themeCountsOf articles) :=
        (sortByCountDesc_perm (themeCountsOf articles)).mem_iff.mpr hp
      have hptake : p ∉ (sortByCountDesc (themeCountsOf articles)).take 3 := by
        intro hmem3
        exact hmem (List.mem_map.mpr ⟨p, hmem3, hp1⟩)
      have hpdrop : p ∈ (sortByCountDesc (themeCountsOf articles)).drop 3 := by
        rcases List.mem_append.mp
            ((List.take_append_drop 3 (sortByCountDesc (themeCountsOf articles))).symm ▸
              hpsorted) with hx | hx
        · exact absurd hx hptake
        · exact hx
      constructor
      · have h1 : 0 < ((sortByCountDesc (themeCountsOf articles)).drop 3).length :=
          List.length_pos.mpr (fun he => by simp [he] at hpdrop)
        rw [List.length_drop] at h1
        unfold extractThemes
        rw [List.length_map, List.length_take]
        omega
      · intro u hu
        rcases List.mem_map.mp hu with ⟨q, hq3, rfl⟩
        have hsorted := sortByCountDesc_sorted (themeCountsOf articles)
        rw [← List.take_append_drop 3 (sortByCountDesc (themeCountsOf articles)),
          List.pairwise_append] at hsorted
        have hple : p.2 ≤ q.2 := hsorted.2.2 q hq3 p hpdrop
        have hpc := mem_themeCountsOf_char articles p hp
        have hqc := mem_themeCountsOf_char articles q (mem_take_sorted articles q hq3)
        have hpkws : themeCount articles kws = p.2 := by
          rw [hpc.2.1, hp1, hkw]
        rw [← hqc.2.1, hpkws]
        exact hple

/-- C6: with the credential absent from the configuration, the call warns
"NEWSAPI_KEY not configured", returns absent, and never invokes `fetch` —
whatever the network oracle would have done. -/
theorem C6_missing_key (env : Env) (net : FetchOutcome) (now : String)
    (h : env.NEWSAPI_KEY = none) :
    fetchNewsSentiment env net now =
      ⟨none, [⟨LogLevel.warn, "NEWSAPI_KEY not configured"⟩], false⟩ := by
  have hb : fetchBody env net now =
      ⟨Except.ok none, [⟨LogLevel.warn, "NEWSAPI_KEY not configured"⟩], false⟩ := by
    simp [fetchBody, keyMissing, h]
  rw [fetchNewsSentiment_def, hb]

theorem C6_missing_key_witness :
    fetchNewsSentiment ⟨none⟩ (FetchOutcome.throws "boom") "now" =
      ⟨none, [⟨LogLevel.warn, "NEWSAPI_KEY not configured"⟩], false⟩ :=
  C6_missing_key ⟨none⟩ (FetchOutcome.throws "boom") "now" rfl

/-- C7: on a response whose status is not a success, the call warns
"NewsAPI returned <status>", returns absent, and its outcome does not depend
on the body-parsing behaviour, which is never consulted. -/
theorem C7_bad_status (env : Env) (now : String) (status : Nat) (body : JsonOutcome)
    (hkey : keyMissing env.NEWSAPI_KEY = false)
    (hstatus : statusOk status = false) :
    fetchNewsSentiment env (FetchOutcome.success status body) now =
      ⟨none, [⟨LogLevel.warn, "NewsAPI returned " ++ toString status⟩], true⟩ := by
  have hb : fetchBody env (FetchOutcome.success status body) now =
      ⟨Except.ok none, [⟨LogLevel.warn, "NewsAPI returned " ++ toString status⟩], true⟩ := by
    simp [fetchBody, hkey, hstatus]
  rw [fetchNewsSentiment_def, hb]

theorem C7_bad_status_witness :
    fetchNewsSentiment ⟨some "k"⟩ (FetchOutcome.success 500 (JsonOutcome.throws "x")) "now" =
      ⟨none, [⟨LogLevel.warn, "NewsAPI returned " ++ toString 500⟩], true⟩ :=
  C7_bad_status ⟨some "k"⟩ "now" 500 (JsonOutcome.throws "x") (by decide) (by decide)

/-- C8: a parsed body whose article list is missing or empty gives the
absent result: `structureNewsData` returns null, and through the whole
pipeline the call's result is absent for every configuration and status —
never an empty-but-present summary. -/
theorem C8_empty_articles_absent (now : String) (arts : Option (List RawArticle))
    (h : arts = none ∨ arts = some []) :
    structureNewsData arts now = Except.ok none ∧
    ∀ (env : Env) (status : Nat),
      (fetchNewsSentiment env
        (FetchOutcome.success status (JsonOutcome.parsed arts)) now).result = none := by
  have habs : structureNewsData arts now = Except.ok none := by
    rcases h with rfl | rfl
    · rfl
    · rfl
  refine ⟨habs, ?_⟩
  intro env status
  rw [fetchNewsSentiment_def]
  by_cases hkey : keyMissing env.NEWSAPI_KEY = true
  · simp [fetchBody, hkey]
  · by_cases hst : statusOk status = true
    · simp [fetchBody, hkey, hst, habs]
    · simp [fetchBody, hkey, hst]

theorem C8_empty_articles_absent_witness :
    structureNewsData (some []) "now" = Except.ok none ∧
    ∀ (env : Env) (status : Nat),
      (fetchNewsSentiment env
        (FetchOutcome.success status (JsonOutcome.parsed (some []))) "now").result = none :=
  C8_empty_articles_absent "now" (some []) (Or.inr rfl)

/-- C9: the returned theme list never repeats a label, and every label is
one of the five declared themes. -/
theorem C9_nodup_declared_labels (articles : List RawArticle) :
    (extractThemes articles).Nodup ∧
    ∀ t ∈ extractThemes articles,
      t ∈ ["monetary_policy", "inflation", "growth", "employment", "markets"] := by
  constructor
  · unfold extractThemes
    rw [List.map_take]
    have hkeys : ((sortByCountDesc (themeCountsOf articles)).map Prod.fst).Nodup := by
      have hperm := (sortByCountDesc_perm (themeCountsOf articles)).map Prod.fst
      exact hperm.nodup_iff.mpr (goodCounts_themeCountsOf articles).1
    exact hkeys.sublist (List.take_sublist 3 _)
  · intro t ht
    rcases List.mem_map.mp ht with ⟨p, hp, rfl⟩
    have hc := mem_themeCountsOf_char articles p (mem_take_sorted articles p hp)
    simpa [themeKeywords] using hc.1

/-- C10: when the parsed body is non-empty but one of its first 10 articles
lacks a source object, the projection faults; the outermost handler absorbs
the fault, so the call returns absent and logs at error level. -/
theorem C10_missing_source_absorbed (env : Env) (now : String) (status : Nat)
    (arts : List RawArticle)
    (hkey : keyMissing env.NEWSAPI_KEY = false)
    (hstatus : statusOk status = true)
    (hne : arts ≠ [])
    (hbad : ∃ a ∈ arts.take 10, a.source = none) :
    (fetchNewsSentiment env
      (FetchOutcome.success status (JsonOutcome.parsed (some arts))) now).result = none ∧
    ∃ e ∈ (fetchNewsSentiment env
      (FetchOutcome.success status (JsonOutcome.parsed (some arts))) now).logs,
      e.level = LogLevel.error := by
  rcases headlinesOf_error_of_missing_source _ hbad with ⟨msg, hmsg⟩
  have hlen : ¬ (arts.length = 0) := by simpa [List.length_eq_zero] using hne
  have hst : structureNewsData (some arts) now = Except.error msg := by
    simp [structureNewsData, hlen, hmsg]
  have hb : fetchBody env (FetchOutcome.success status (JsonOutcome.parsed (some arts))) now =
      ⟨Except.error msg, [], true⟩ := by
    simp [fetchBody, hkey, hstatus, hst]
  rw [fetchNewsSentiment_def, hb]
  refine ⟨rfl, ⟨LogLevel.error, "NewsAPI fetch failed: " ++ msg⟩, ?_, rfl⟩
  simp

theorem C10_missing_source_absorbed_witness :
    (fetchNewsSentiment ⟨some "k"⟩
      (FetchOutcome.success 200 (JsonOutcome.parsed (some [artNoSource]))) "now").result = none ∧
    ∃ e ∈ (fetchNewsSentiment ⟨some "k"⟩
      (FetchOutcome.success 200 (JsonOutcome.parsed (some [artNoSource]))) "now").logs,
      e.level = LogLevel.error :=
  C10_missing_source_absorbed ⟨some "k"⟩ "now" 200 [artNoSource]
    (by decide) (by decide) (by decide) ⟨artNoSource, by decide, rfl⟩

end NewsApi
